import Mathlib

/-!
# Verification of the ZeroTier-GUI (Windows fork) command/state layer

A shallow embedding of `src/zerotier-gui-windows.py`. Python JSON values are
modelled by `Json`; Python dictionary/list subscripting, membership, `len`,
iteration and truthiness are modelled by the `py*` helpers, with Python
exceptions surfaced through `Except PyError`. The `json.loads` / `json.dump`
pair is modelled by an executable parser (`jsonLoads`) and printer
(`jsonDump`) for the JSON fragment the program manipulates.
-/

namespace ZtGui

/-- A decoded JSON value, as produced by Python's `json.loads`. Objects keep
their fields in insertion order, as Python dictionaries do. -/
inductive Json where
  | null : Json
  | bool (b : Bool) : Json
  | num (n : Int) : Json
  | str (s : String) : Json
  | arr (xs : List Json) : Json
  | obj (fields : List (String × Json)) : Json
deriving Repr

mutual

/-- Structural equality test on JSON values. -/
def Json.beq : Json → Json → Bool
  | .null, .null => true
  | .bool a, .bool b => a == b
  | .num a, .num b => a == b
  | .str a, .str b => a == b
  | .arr xs, .arr ys => Json.beqList xs ys
  | .obj fs, .obj gs => Json.beqFields fs gs
  | _, _ => false

/-- Structural equality test on JSON arrays. -/
def Json.beqList : List Json → List Json → Bool
  | [], [] => true
  | x :: xs, y :: ys => Json.beq x y && Json.beqList xs ys
  | _, _ => false

/-- Structural equality test on JSON object fields. -/
def Json.beqFields : List (String × Json) → List (String × Json) → Bool
  | [], [] => true
  | (k, v) :: fs, (l, w) :: gs => k == l && Json.beq v w && Json.beqFields fs gs
  | _, _ => false

end

mutual

theorem Json.beq_iff : ∀ a b : Json, Json.beq a b = true ↔ a = b
  | .null, b => by cases b <;> simp [Json.beq]
  | .bool a, b => by cases b <;> simp [Json.beq]
  | .num a, b => by cases b <;> simp [Json.beq]
  | .str a, b => by cases b <;> simp [Json.beq]
  | .arr xs, b => by
    cases b <;> simp [Json.beq]
    exact Json.beqList_iff xs _
  | .obj fs, b => by
    cases b <;> simp [Json.beq]
    exact Json.beqFields_iff fs _

theorem Json.beqList_iff : ∀ xs ys : List Json, Json.beqList xs ys = true ↔ xs = ys
  | [], ys => by cases ys <;> simp [Json.beqList]
  | x :: xs, ys => by
    cases ys with
    | nil => simp [Json.beqList]
    | cons y ys =>
      simp [Json.beqList, Json.beq_iff x y, Json.beqList_iff xs ys]

theorem Json.beqFields_iff :
    ∀ fs gs : List (String × Json), Json.beqFields fs gs = true ↔ fs = gs
  | [], gs => by cases gs <;> simp [Json.beqFields]
  | (k, v) :: fs, gs => by
    cases gs with
    | nil => simp [Json.beqFields]
    | cons g gs =>
      obtain ⟨l, w⟩ := g
      simp [Json.beqFields, Json.beq_iff v w, Json.beqFields_iff fs gs,
        and_assoc]

end

instance : DecidableEq Json := fun a b =>
  decidable_of_iff (Json.beq a b = true) (Json.beq_iff a b)

instance {ε α : Type} [DecidableEq ε] [DecidableEq α] :
    DecidableEq (Except ε α) := fun a b =>
  match a, b with
  | .ok x, .ok y =>
    if h : x = y then .isTrue (by rw [h]) else .isFalse (by simp [h])
  | .error e, .error f =>
    if h : e = f then .isTrue (by rw [h]) else .isFalse (by simp [h])
  | .ok _, .error _ => .isFalse (by simp)
  | .error _, .ok _ => .isFalse (by simp)

/-- Python exceptions that the modelled code can raise. -/
inductive PyError where
  | keyError (k : Json) : PyError
  | typeError : PyError
  | indexError : PyError
  | jsonDecodeError : PyError
deriving Repr, DecidableEq

/-- Field lookup in an object, first (unique) occurrence. -/
def lookupField : List (String × Json) → String → Option Json
  | [], _ => none
  | (k, v) :: fs, key => if k = key then some v else lookupField fs key

/-- Replace the value stored under `key`, keeping its position; Python
dictionaries keep the original insertion position on overwrite. -/
def setField : List (String × Json) → String → Json → List (String × Json)
  | [], key, v => [(key, v)]
  | (k, w) :: fs, key, v =>
    if k = key then (k, v) :: fs else (k, w) :: setField fs key v

/-- Remove the field stored under `key` (first occurrence). -/
def removeField : List (String × Json) → String → List (String × Json)
  | [], _ => []
  | (k, w) :: fs, key => if k = key then fs else (k, w) :: removeField fs key

/-- Python subscript `d[k]`: string-keyed lookup on dictionaries (KeyError
when absent), integer indexing on lists, TypeError otherwise. -/
def pyGetItem : Json → Json → Except PyError Json
  | .obj fs, .str s =>
    match lookupField fs s with
    | some v => .ok v
    | none => .error (.keyError (.str s))
  | .obj _, k => .error (.keyError k)
  | .arr xs, .num n =>
    if h : 0 ≤ n ∧ n.toNat < xs.length then .ok (xs.get ⟨n.toNat, h.2⟩)
    else .error .indexError
  | _, _ => .error .typeError

/-- `d[k]` with a Python string literal as the key. -/
def pyGet (d : Json) (k : String) : Except PyError Json :=
  pyGetItem d (.str k)

/-- Python assignment `d[k] = v` on a dictionary (insert or overwrite). -/
def pySetItem : Json → Json → Json → Except PyError Json
  | .obj fs, .str s, v => .ok (.obj (setField fs s v))
  | _, _, _ => .error .typeError

/-- Python `d.pop(k)` with no default: removes the key, KeyError if absent. -/
def pyPop : Json → String → Except PyError Json
  | .obj fs, k =>
    match lookupField fs k with
    | some _ => .ok (.obj (removeField fs k))
    | none => .error (.keyError (.str k))
  | _, _ => .error .typeError

/-- Python `k in d` for a dictionary: key membership. Unhashable keys
(lists, dictionaries) raise TypeError. -/
def pyContains : Json → Json → Except PyError Bool
  | .obj fs, .str s => .ok (decide (lookupField fs s ≠ none))
  | .obj _, .arr _ => .error .typeError
  | .obj _, .obj _ => .error .typeError
  | .obj _, _ => .ok false
  | _, _ => .error .typeError

/-- Python `len`. -/
def pyLen : Json → Except PyError Nat
  | .arr xs => .ok xs.length
  | .obj fs => .ok fs.length
  | .str s => .ok s.length
  | _ => .error .typeError

/-- Python iteration `for x in d`: lists yield their elements, dictionaries
their keys (as strings), anything else raises TypeError. -/
def pyIter : Json → Except PyError (List Json)
  | .arr xs => .ok xs
  | .obj fs => .ok (fs.map fun kv => .str kv.1)
  | _ => .error .typeError

/-- Python truthiness: `not x` is true exactly when `pyFalsy x`. -/
def pyFalsy : Json → Bool
  | .null => true
  | .bool b => !b
  | .num n => n = 0
  | .str s => s = ""
  | .arr xs => xs.isEmpty
  | .obj fs => fs.isEmpty

/-! ## The `json` module: `json.loads` and `json.dump`

An executable recursive-descent parser with an explicit recursion budget
(always called with a budget larger than the input length), and the printer
using `json.dump`'s default separators `", "` and `": "` with ASCII string
escaping. -/

/-- JSON insignificant whitespace. -/
def isWsChar (c : Char) : Bool :=
  c = ' ' || c = '\n' || c = '\t' || c = '\r'

/-- Drop leading whitespace. -/
def skipWs : List Char → List Char
  | [] => []
  | c :: cs => if isWsChar c then skipWs cs else c :: cs

/-- Decimal digit test (`'0'` to `'9'`). -/
def isDigitChar (c : Char) : Bool :=
  48 ≤ c.toNat && c.toNat ≤ 57

/-- Consume a run of decimal digits, most significant first. -/
def parseDigits (acc : Nat) : List Char → Nat × List Char
  | [] => (acc, [])
  | c :: cs =>
    if isDigitChar c then parseDigits (acc * 10 + (c.toNat - 48)) cs
    else (acc, c :: cs)

/-- The character denoted by a backslash escape inside a JSON string
(`\uXXXX` escapes are not modelled; the printer never emits them). -/
def unescape (e : Char) : Option Char :=
  if e = '"' ∨ e = '\\' ∨ e = '/' then some e
  else if e = 'n' then some '\n'
  else if e = 't' then some '\t'
  else if e = 'r' then some '\r'
  else if e = 'b' then some (Char.ofNat 8)
  else if e = 'f' then some (Char.ofNat 12)
  else none

/-- Parse the body of a JSON string after its opening quote, up to and
including the closing quote; returns the decoded characters and the rest. -/
def parseStringBody : List Char → Option (List Char × List Char)
  | [] => none
  | c :: rest =>
    if c = '"' then some ([], rest)
    else if c = '\\' then
      match rest with
      | [] => none
      | e :: rest2 =>
        match unescape e with
        | some d =>
          match parseStringBody rest2 with
          | some (s, r) => some (d :: s, r)
          | none => none
        | none => none
    else
      match parseStringBody rest with
      | some (s, r) => some (c :: s, r)
      | none => none

mutual

/-- Parse one JSON value (budgeted). -/
def parseVal : Nat → List Char → Option (Json × List Char)
  | 0, _ => none
  | fuel + 1, cs =>
    match skipWs cs with
    | [] => none
    | c :: rest =>
      if c = '"' then
        match parseStringBody rest with
        | some (s, r) => some (.str s.asString, r)
        | none => none
      else if c = 't' then
        match rest with
        | 'r' :: 'u' :: 'e' :: r => some (.bool true, r)
        | _ => none
      else if c = 'f' then
        match rest with
        | 'a' :: 'l' :: 's' :: 'e' :: r => some (.bool false, r)
        | _ => none
      else if c = 'n' then
        match rest with
        | 'u' :: 'l' :: 'l' :: r => some (.null, r)
        | _ => none
      else if c = '[' then
        match skipWs rest with
        | [] => none
        | d :: r2 =>
          if d = ']' then some (.arr [], r2)
          else
            match parseItems fuel (d :: r2) with
            | some (xs, r3) => some (.arr xs, r3)
            | none => none
      else if c = '{' then
        match skipWs rest with
        | [] => none
        | d :: r2 =>
          if d = '}' then some (.obj [], r2)
          else
            match parseFields fuel (d :: r2) with
            | some (fs, r3) => some (.obj fs, r3)
            | none => none
      else if c = '-' then
        match rest with
        | [] => none
        | d :: r =>
          if isDigitChar d then
            match parseDigits (d.toNat - 48) r with
            | (m, r2) => some (.num (-(m : Int)), r2)
          else none
      else if isDigitChar c then
        match parseDigits (c.toNat - 48) rest with
        | (m, r2) => some (.num (m : Int), r2)
      else none

/-- Parse the items of a non-empty JSON array, up to and including `]`. -/
def parseItems : Nat → List Char → Option (List Json × List Char)
  | 0, _ => none
  | fuel + 1, cs =>
    match parseVal fuel cs with
    | none => none
    | some (v, r) =>
      match skipWs r with
      | [] => none
      | d :: r2 =>
        if d = ',' then
          match parseItems fuel r2 with
          | some (vs, r3) => some (v :: vs, r3)
          | none => none
        else if d = ']' then some ([v], r2)
        else none

/-- Parse the fields of a non-empty JSON object, up to and including the
closing brace. -/
def parseFields : Nat → List Char → Option (List (String × Json) × List Char)
  | 0, _ => none
  | fuel + 1, cs =>
    match skipWs cs with
    | [] => none
    | c :: rest =>
      if c = '"' then
        match parseStringBody rest with
        | none => none
        | some (k, r) =>
          match skipWs r with
          | [] => none
          | d :: r2 =>
            if d = ':' then
              match parseVal fuel r2 with
              | none => none
              | some (v, r3) =>
                match skipWs r3 with
                | [] => none
                | e :: r4 =>
                  if e = ',' then
                    match parseFields fuel r4 with
                    | some (fs, r5) => some ((k.asString, v) :: fs, r5)
                    | none => none
                  else if e = '}' then some ([(k.asString, v)], r4)
                  else none
            else none
      else none

end

/-- Python's `json.loads`: parse the whole text, allowing surrounding
whitespace; `none` models a raised `JSONDecodeError`. -/
def jsonLoads (text : String) : Option Json :=
  match parseVal (text.length + 1) text.toList with
  | some (v, rest) => if skipWs rest = [] then some v else none
  | none => none

/-- Decimal digits of a natural number, most significant first. -/
def printNatChars (n : Nat) : List Char :=
  if h : n < 10 then [Char.ofNat (48 + n)]
  else printNatChars (n / 10) ++ [Char.ofNat (48 + n % 10)]
decreasing_by exact Nat.div_lt_self (by omega) (by omega)

/-- Escape one character of a JSON string, as `json.dump` does for
printable ASCII text. -/
def escapeChar (c : Char) : List Char :=
  if c = '"' then ['\\', '"']
  else if c = '\\' then ['\\', '\\']
  else [c]

/-- Escape every character of a JSON string body. -/
def escapeChars : List Char → List Char
  | [] => []
  | c :: cs => escapeChar c ++ escapeChars cs

/-- Print a JSON string, quotes included. -/
def printStr (s : String) : List Char :=
  '"' :: (escapeChars s.toList ++ ['"'])

/-- Print a JSON number (an integer). -/
def printNum (n : Int) : List Char :=
  if n < 0 then '-' :: printNatChars n.natAbs else printNatChars n.toNat

mutual

/-- Print one JSON value with `json.dump`'s default separators. -/
def printVal : Json → List Char
  | .null => 'n' :: ['u', 'l', 'l']
  | .bool b => if b then 't' :: ['r', 'u', 'e'] else 'f' :: ['a', 'l', 's', 'e']
  | .num n => printNum n
  | .str s => printStr s
  | .arr [] => ['[', ']']
  | .arr (x :: xs) => '[' :: (printItems x xs ++ [']'])
  | .obj [] => ['{', '}']
  | .obj ((k, v) :: fs) => '{' :: (printFields k v fs ++ ['}'])
termination_by v => sizeOf v
decreasing_by all_goals (simp_wf; try omega)

/-- Print array items separated by `", "`. -/
def printItems (x : Json) : List Json → List Char
  | [] => printVal x
  | y :: ys => printVal x ++ (',' :: ' ' :: printItems y ys)
termination_by ys => 1 + sizeOf x + sizeOf ys
decreasing_by all_goals (simp_wf; try omega)

/-- Print object fields separated by `", "`, each key and value joined
by `": "`. -/
def printFields (k : String) (v : Json) : List (String × Json) → List Char
  | [] => printStr k ++ (':' :: ' ' :: printVal v)
  | (l, w) :: gs =>
    printStr k ++ (':' :: ' ' :: printVal v) ++
      (',' :: ' ' :: printFields l w gs)
termination_by gs => 1 + sizeOf v + sizeOf gs
decreasing_by all_goals (simp_wf; try omega)

end

/-- Python's `json.dump` serialisation (the text written to the file). -/
def jsonDump (v : Json) : String :=
  (printVal v).asString

/-! ## The program: the command/state layer of `zerotier-gui-windows.py` -/

/-- Result of a `subprocess.check_output` call: captured output on exit 0,
or the exit code and captured output of a `CalledProcessError`. -/
inductive CmdResult where
  | ok (output : String) : CmdResult
  | err (exitCode : Nat) (output : String) : CmdResult
deriving Repr, DecidableEq

/-- The error dialog text shown by the readers on command failure. -/
def commandErrorMessage (output : String) : String :=
  "Erreur lors de l'exécution de la commande:\n" ++ output

/-- `get_networks_info` (lines 316-326): runs `zerotier-cli -j listnetworks`.
On exit 0 the output is decoded with `json.loads` — only
`CalledProcessError` is caught, so a decode failure propagates. On command
failure an error dialog with the captured output is shown and the empty
dict is returned. The first component lists the dialogs shown. -/
def get_networks_info (cmd : CmdResult) : List String × Except PyError Json :=
  match cmd with
  | .ok output =>
    match jsonLoads output with
    | some v => ([], .ok v)
    | none => ([], .error .jsonDecodeError)
  | .err _ output => ([commandErrorMessage output], .ok (.obj []))

/-- `get_peers_info` (lines 328-337): runs `zerotier-cli -j peers`, with the
same error handling as `get_networks_info`. -/
def get_peers_info (cmd : CmdResult) : List String × Except PyError Json :=
  match cmd with
  | .ok output =>
    match jsonLoads output with
    | some v => ([], .ok v)
    | none => ([], .error .jsonDecodeError)
  | .err _ output => ([commandErrorMessage output], .ok (.obj []))

/-- Python `str.split()` with no separator: split on whitespace runs,
dropping empty tokens. -/
def pySplit (s : String) : List String :=
  (s.split fun c => c.isWhitespace).filter fun t => t ≠ ""

/-- `get_status` (lines 339-348): runs `zerotier-cli status` and splits the
output into whitespace-separated tokens; on command failure an error dialog
is shown and the empty list is returned. -/
def get_status (cmd : CmdResult) : List String × List String :=
  match cmd with
  | .ok output => ([], pySplit output)
  | .err _ output => ([commandErrorMessage output], [])

/-- `load_network_history` (lines 174-186): a missing history file is
created empty; the file is then read and decoded, a `JSONDecodeError`
yielding the empty dict. Returns the file content after the call and the
loaded `network_history`. -/
def load_network_history (file : Option String) : String × Json :=
  match file with
  | none =>
    ("", match jsonLoads "" with
         | some v => v
         | none => .obj [])
  | some content =>
    (content, match jsonLoads content with
              | some v => v
              | none => .obj [])

/-- `save_network_history` (lines 303-308): serialises `network_history`
over the history file; the result is the new file content. -/
def save_network_history (network_history : Json) : String :=
  jsonDump network_history

/-- The scan loop of `get_network_name_by_id`: the first record whose
`nwid` equals the id yields its `name`; falling through the loop returns
Python's implicit `None`. -/
def findNameLoop (network_id : String) : List Json → Except PyError Json
  | [] => .ok .null
  | network :: rest => do
    let nwid ← pyGet network "nwid"
    if nwid = .str network_id then pyGet network "name"
    else findNameLoop network_id rest

/-- `get_network_name_by_id` (lines 310-314): linear scan of a fresh
`listnetworks` result by the `nwid` field. -/
def get_network_name_by_id (networkData : Json) (network_id : String) :
    Except PyError Json := do
  let networks ← pyIter networkData
  findNameLoop network_id networks

/-- The fields of `datetime.now()` the program reads. -/
structure PyDateTime where
  year : Nat
  month : Nat
  day : Nat
  hour : Nat
  minute : Nat
deriving Repr, DecidableEq

/-- Python format spec `{:0>2}` applied to a natural number: right-align in
width 2, filling with `'0'`. -/
def pad2 (n : Nat) : String :=
  (List.replicate (2 - (toString n).length) '0').asString ++ toString n

/-- The `join_date` format of `add_network_to_history`:
`f"{date.year}/{date.month:0>2}/{date.day:0>2} {date.hour:0>2}:{date.minute:0>2}"`. -/
def format_join_date (d : PyDateTime) : String :=
  toString d.year ++ "/" ++ pad2 d.month ++ "/" ++ pad2 d.day ++ " " ++
    pad2 d.hour ++ ":" ++ pad2 d.minute

/-- `add_network_to_history` (lines 403-410): resolves the network name
from a fresh `listnetworks` result and stores
`{"name": name, "join_date": now}` under the id. -/
def add_network_to_history (networkData : Json) (now : PyDateTime)
    (network_history : Json) (network_id : String) : Except PyError Json := do
  let network_name ← get_network_name_by_id networkData network_id
  let join_date := format_join_date now
  pySetItem network_history (.str network_id)
    (.obj [("name", network_name), ("join_date", .str join_date)])

/-- The loop of `is_on_network`, with its `break`: an iteration that starts
with `currently_joined` true breaks; otherwise the flag is recomputed from
the current record's `nwid`. -/
def isOnLoop (network_id : String) (currently_joined : Bool) :
    List Json → Except PyError Bool
  | [] => .ok currently_joined
  | network :: rest =>
    if currently_joined then .ok currently_joined
    else do
      let nwid ← pyGet network "nwid"
      isOnLoop network_id (decide (nwid = .str network_id)) rest

/-- `is_on_network` (lines 412-418): scans a fresh `listnetworks` result
for a record whose `nwid` equals the id. -/
def is_on_network (networkData : Json) (network_id : String) :
    Except PyError Bool := do
  let networks ← pyIter networkData
  isOnLoop network_id false networks

/-- The observable outcome of one `join_network` call: the dialogs shown,
the history mapping afterwards, whether the external join command was
invoked, and whether the network list was refreshed. -/
structure JoinOutcome where
  messages : List String
  network_history : Json
  joinInvoked : Bool
  refreshed : Bool
deriving Repr, DecidableEq

/-- `join_network` (lines 421-441): first checks membership on a fresh
`listnetworks` result (`netsBefore`); on a hit it shows "You're already a
member of this network." and returns without running the join command and
without touching history. Otherwise `zerotier-cli join` runs
(`joinSucceeds` tells whether it exits 0); on success the join is recorded
(resolving the name against a second fresh result, `netsAfter`) and the
list refreshed; a `CalledProcessError` from the join command is reported as
"Invalid network ID". -/
def join_network (netsBefore netsAfter : Json) (joinSucceeds : Bool)
    (now : PyDateTime) (network_history : Json) (network_id : String) :
    Except PyError JoinOutcome := do
  let onNet ← is_on_network netsBefore network_id
  if onNet then
    .ok { messages := ["You're already a member of this network."],
          network_history := network_history, joinInvoked := false,
          refreshed := false }
  else if joinSucceeds then do
    let hist2 ← add_network_to_history netsAfter now network_history network_id
    .ok { messages := ["Successfully joined network"],
          network_history := hist2, joinInvoked := true, refreshed := true }
  else
    .ok { messages := ["Invalid network ID"],
          network_history := network_history, joinInvoked := true,
          refreshed := false }

/-- The loop of `update_network_history_names`: for each record, when its
`nwid` is a key of the history, `history[nwid]["name"]` is overwritten with
the record's `name`. -/
def updateNamesLoop : List Json → Json → Except PyError Json
  | [], network_history => .ok network_history
  | network :: rest, network_history => do
    let network_id ← pyGet network "nwid"
    let network_name ← pyGet network "name"
    let mem ← pyContains network_history network_id
    if mem then do
      let entry ← pyGetItem network_history network_id
      let entry2 ← pySetItem entry (.str "name") network_name
      let hist2 ← pySetItem network_history network_id entry2
      updateNamesLoop rest hist2
    else
      updateNamesLoop rest network_history

/-- `update_network_history_names` (lines 295-301). -/
def update_network_history_names (networkData : Json)
    (network_history : Json) : Except PyError Json := do
  let networks ← pyIter networkData
  updateNamesLoop networks network_history

/-- The history mutation of `delete_history_entry` (lines 486-491):
`self.network_history.pop(network_id)`, Python `dict.pop` with no
default. -/
def delete_history_entry (network_history : Json) (network_id : String) :
    Except PyError Json :=
  pyPop network_history network_id

/-- The first loop of `refresh_networks`: for every position in
`range(len(networkData))`, the tuple
`(data[pos]["id"], data[pos]["name"], data[pos]["status"], False)`. -/
def collectNetworkTuples (networkData : Json) :
    List Nat → Except PyError (List (Json × Json × Json × Bool))
  | [] => .ok []
  | i :: rest => do
    let network ← pyGetItem networkData (.num (i : Int))
    let idv ← pyGet network "id"
    let namev ← pyGet network "name"
    let statusv ← pyGet network "status"
    let tail ← collectNetworkTuples networkData rest
    .ok ((idv, namev, statusv, false) :: tail)

/-- The rows `refresh_networks` (lines 264-293) leaves in the network list:
the widget is cleared, then one row per tuple is inserted, a falsy name
replaced by "Unknown Name". -/
def refresh_networks_rows (networkData : Json) :
    Except PyError (List (Json × Json × Json)) := do
  let n ← pyLen networkData
  let tuples ← collectNetworkTuples networkData (List.range n)
  .ok (tuples.map fun t =>
    (t.1, if pyFalsy t.2.1 then .str "Unknown Name" else t.2.1, t.2.2.1))

/-- `refresh_networks` in full: the rows displayed and the history after
`update_network_history_names`; the two fresh `listnetworks` fetches it
performs are the two parameters. -/
def refresh_networks (networkData networkData2 : Json)
    (network_history : Json) :
    Except PyError (List (Json × Json × Json) × Json) := do
  let rows ← refresh_networks_rows networkData
  let hist2 ← update_network_history_names networkData2 network_history
  .ok (rows, hist2)

/-- A user-visible effect of a dispatcher operation. -/
inductive Effect where
  | showInfo (title message : String) : Effect
  | runCommand (command : List String) : Effect
deriving Repr, DecidableEq

set_option linter.unusedVariables false in
/-- `get_interface_state` (lines 719-722): disabled on Windows — returns
"UP" unconditionally, consulting no system interface listing. -/
def get_interface_state (interface : String) : String := "UP"

/-- `toggle_interface_connection` (lines 725-730): disabled on Windows — it
shows one informational dialog and issues no state-change command. -/
def toggle_interface_connection : List Effect :=
  [.showInfo "Non disponible"
    "La fonction de connexion/déconnexion d'interface n'est pas disponible sur Windows"]


/-! ### Round trip: the printed form of a value parses back to it -/

/-- The input does not begin with a decimal digit. -/
def notDigitStart : List Char → Bool
  | [] => true
  | c :: _ => !isDigitChar c

theorem skipWs_of_head {c : Char} (h : isWsChar c = false) (cs : List Char) :
    skipWs (c :: cs) = c :: cs := by
  simp [skipWs, h]

theorem digit_not_ws {c : Char} (h : isDigitChar c = true) : isWsChar c = false := by
  by_contra hw
  rw [Bool.not_eq_false] at hw
  simp only [isWsChar, Bool.or_eq_true, decide_eq_true_eq] at hw
  rcases hw with ((hc | hc) | hc) | hc <;> subst hc <;> revert h <;> decide

theorem digit_ne {c : Char} (h : isDigitChar c = true) :
    c ≠ '"' ∧ c ≠ 't' ∧ c ≠ 'f' ∧ c ≠ 'n' ∧ c ≠ '[' ∧ c ≠ '{' ∧ c ≠ '-' ∧
      c ≠ ']' ∧ c ≠ '}' ∧ c ≠ ',' ∧ c ≠ ':' := by
  refine ⟨?_, ?_, ?_, ?_, ?_, ?_, ?_, ?_, ?_, ?_, ?_⟩ <;>
    (rintro rfl; revert h; decide)

theorem digit_ofNat_isDigit : ∀ n, n < 10 → isDigitChar (Char.ofNat (48 + n)) = true := by
  decide

theorem digit_ofNat_toNat : ∀ n, n < 10 → (Char.ofNat (48 + n)).toNat = 48 + n := by
  decide

theorem parseDigits_printNatChars (n : Nat) : ∀ acc rest,
    parseDigits acc (printNatChars n ++ rest) =
      parseDigits (acc * 10 ^ (printNatChars n).length + n) rest := by
  induction n using Nat.strong_induction_on with
  | _ n ih =>
    intro acc rest
    rw [printNatChars.eq_def]
    split
    · next h =>
      have hd := digit_ofNat_isDigit n h
      have ht := digit_ofNat_toNat n h
      simp [parseDigits, hd, ht]
    · next h =>
      have hlt : n / 10 < n := Nat.div_lt_self (by omega) (by omega)
      have hd := digit_ofNat_isDigit (n % 10) (Nat.mod_lt n (by omega))
      have ht := digit_ofNat_toNat (n % 10) (Nat.mod_lt n (by omega))
      rw [List.append_assoc, List.cons_append, List.nil_append,
        ih (n / 10) hlt]
      simp only [parseDigits, hd, if_true, ht]
      congr 1
      rw [List.length_append, List.length_cons, List.length_nil]
      rw [pow_succ, ← mul_assoc]
      generalize acc * 10 ^ (printNatChars (n / 10)).length = Q
      omega

theorem parseDigits_stop (acc : Nat) {rest : List Char}
    (h : notDigitStart rest = true) : parseDigits acc rest = (acc, rest) := by
  cases rest with
  | nil => simp [parseDigits]
  | cons c cs =>
    simp only [notDigitStart, Bool.not_eq_true'] at h
    simp [parseDigits, h]

theorem printNatChars_cons (n : Nat) :
    ∃ c cs, printNatChars n = c :: cs ∧ isDigitChar c = true := by
  induction n using Nat.strong_induction_on with
  | _ n ih =>
    rw [printNatChars.eq_def]
    split
    · next h => exact ⟨_, _, rfl, digit_ofNat_isDigit n h⟩
    · next h =>
      obtain ⟨c, cs, hc, hd⟩ :=
        ih (n / 10) (Nat.div_lt_self (by omega) (by omega))
      exact ⟨c, cs ++ [Char.ofNat (48 + n % 10)], by rw [hc, List.cons_append], hd⟩

/-- Consuming a printed number: starting the accumulator from the first digit
and parsing the remaining digits recovers the number, when the rest of the
input does not begin with a digit. -/
theorem parseDigits_print_head {n : Nat} {c : Char} {cs : List Char}
    (hc : printNatChars n = c :: cs) {rest : List Char}
    (h : notDigitStart rest = true) :
    parseDigits (c.toNat - 48) (cs ++ rest) = (n, rest) := by
  have hd : isDigitChar c = true := by
    obtain ⟨c2, cs2, hc2, hd2⟩ := printNatChars_cons n
    rw [hc2] at hc
    cases hc
    exact hd2
  have := parseDigits_printNatChars n 0 rest
  rw [hc] at this
  simp only [List.cons_append, parseDigits, hd, if_true, Nat.zero_mul,
    Nat.zero_add, List.append_eq] at this
  rw [this, parseDigits_stop _ h]

theorem asString_toList (s : String) : s.toList.asString = s := rfl

theorem parseStringBody_escapeChars (cs : List Char) : ∀ rest,
    parseStringBody (escapeChars cs ++ ('"' :: rest)) = some (cs, rest) := by
  induction cs with
  | nil =>
    intro rest
    rw [escapeChars, List.nil_append, parseStringBody.eq_def]
    simp
  | cons c cs ih =>
    intro rest
    by_cases h1 : c = '"'
    · subst h1
      rw [escapeChars, escapeChar]
      simp only [if_pos rfl, List.cons_append, List.append_assoc]
      rw [parseStringBody.eq_def]
      simp [unescape, ih]
    · by_cases h2 : c = '\\'
      · subst h2
        rw [escapeChars, escapeChar]
        simp only [if_neg (by decide : ¬('\\' : Char) = '"'), if_pos rfl,
          List.cons_append, List.append_assoc]
        rw [parseStringBody.eq_def]
        simp [unescape, ih]
      · rw [escapeChars, escapeChar]
        simp only [if_neg h1, if_neg h2, List.cons_append, List.singleton_append]
        rw [parseStringBody.eq_def]
        simp [h1, h2, ih]

theorem parseVal_ws (fuel : Nat) {c : Char} (h : isWsChar c = true)
    (t : List Char) : parseVal fuel (c :: t) = parseVal fuel t := by
  cases fuel with
  | zero => rfl
  | succ f =>
    have hskip : skipWs (c :: t) = skipWs t := by simp [skipWs, h]
    simp only [parseVal, hskip]

theorem parseItems_ws (fuel : Nat) {c : Char} (h : isWsChar c = true)
    (t : List Char) : parseItems fuel (c :: t) = parseItems fuel t := by
  cases fuel with
  | zero => rfl
  | succ f => simp only [parseItems, parseVal_ws f h t]

theorem parseFields_ws (fuel : Nat) {c : Char} (h : isWsChar c = true)
    (t : List Char) : parseFields fuel (c :: t) = parseFields fuel t := by
  cases fuel with
  | zero => rfl
  | succ f =>
    have hskip : skipWs (c :: t) = skipWs t := by simp [skipWs, h]
    simp only [parseFields, hskip]


mutual

/-- Recursion budget needed to parse the printed form of a value. -/
def jsize : Json → Nat
  | .null => 1
  | .bool _ => 1
  | .num _ => 1
  | .str _ => 1
  | .arr [] => 1
  | .arr (x :: xs) => 1 + jsizeItems x xs
  | .obj [] => 1
  | .obj ((_, v) :: fs) => 1 + jsizeFields v fs
termination_by v => sizeOf v
decreasing_by all_goals (simp_wf; try omega)

/-- Budget needed to parse printed array items. -/
def jsizeItems (x : Json) : List Json → Nat
  | [] => 1 + jsize x
  | y :: ys => 1 + jsize x + jsizeItems y ys
termination_by ys => 1 + sizeOf x + sizeOf ys
decreasing_by all_goals (simp_wf; try omega)

/-- Budget needed to parse printed object fields. -/
def jsizeFields (v : Json) : List (String × Json) → Nat
  | [] => 1 + jsize v
  | (_, w) :: gs => 1 + jsize v + jsizeFields w gs
termination_by gs => 1 + sizeOf v + sizeOf gs
decreasing_by all_goals (simp_wf; try omega)

end

theorem jsize_pos (v : Json) : 1 ≤ jsize v := by
  cases v with
  | null => simp [jsize]
  | bool b => simp [jsize]
  | num n => simp [jsize]
  | str s => simp [jsize]
  | arr xs =>
    cases xs with
    | nil => simp [jsize]
    | cons x xs => simp [jsize]
  | obj fs =>
    cases fs with
    | nil => simp [jsize]
    | cons f fs =>
      obtain ⟨k, w⟩ := f
      simp [jsize]

/-- The first character of any printed value: never whitespace, never a
closing bracket, never a closing brace. -/
theorem printVal_head (v : Json) :
    ∃ c cs, printVal v = c :: cs ∧ isWsChar c = false ∧ c ≠ ']' ∧ c ≠ '}' := by
  cases v with
  | null => exact ⟨'n', _, by rw [printVal], by decide, by decide, by decide⟩
  | bool b =>
    cases b with
    | true =>
      exact ⟨'t', ['r', 'u', 'e'], by simp [printVal], by decide, by decide,
        by decide⟩
    | false =>
      exact ⟨'f', ['a', 'l', 's', 'e'], by simp [printVal], by decide,
        by decide, by decide⟩
  | num n =>
    by_cases hn : n < 0
    · refine ⟨'-', printNatChars n.natAbs, ?_, by decide, by decide, by decide⟩
      rw [printVal, printNum, if_pos hn]
    · obtain ⟨c, cs, hc, hd⟩ := printNatChars_cons n.toNat
      obtain ⟨_, _, _, _, _, _, _, h1, h2, _, _⟩ := digit_ne hd
      refine ⟨c, cs, ?_, digit_not_ws hd, h1, h2⟩
      rw [printVal, printNum, if_neg hn, hc]
  | str s => exact ⟨'"', _, by rw [printVal, printStr], by decide, by decide, by decide⟩
  | arr xs =>
    cases xs with
    | nil => exact ⟨'[', _, by rw [printVal], by decide, by decide, by decide⟩
    | cons x xs => exact ⟨'[', _, by rw [printVal], by decide, by decide, by decide⟩
  | obj fs =>
    cases fs with
    | nil => exact ⟨'{', _, by rw [printVal], by decide, by decide, by decide⟩
    | cons f fs =>
      obtain ⟨k, w⟩ := f
      exact ⟨'{', _, by rw [printVal], by decide, by decide, by decide⟩


theorem asString_data (s : String) : s.data.asString = s := rfl

mutual

/-- A printed value parses back to itself, leaving the rest of the input
(which must not start with a digit) untouched. -/
theorem parseVal_printVal (v : Json) : ∀ fuel rest, jsize v ≤ fuel →
    notDigitStart rest = true →
    parseVal fuel (printVal v ++ rest) = some (v, rest) := by
  cases v with
  | null =>
    intro fuel rest hf _
    cases fuel with
    | zero => simp [jsize] at hf
    | succ f =>
      rw [printVal]
      simp [parseVal, skipWs, isWsChar]
  | bool b =>
    intro fuel rest hf _
    cases fuel with
    | zero => simp [jsize] at hf
    | succ f =>
      cases b with
      | true =>
        rw [printVal]
        simp [parseVal, skipWs, isWsChar]
      | false =>
        rw [printVal]
        simp [parseVal, skipWs, isWsChar]
  | num n =>
    intro fuel rest hf hr
    cases fuel with
    | zero => simp [jsize] at hf
    | succ f =>
      rw [printVal, printNum]
      by_cases hn : n < 0
      · rw [if_pos hn]
        obtain ⟨c, cs, hc, hd⟩ := printNatChars_cons n.natAbs
        rw [hc]
        simp only [List.cons_append]
        simp [parseVal, skipWs, isWsChar, hd, digit_not_ws hd,
          parseDigits_print_head hc hr]
        rw [abs_of_nonpos (le_of_lt hn), neg_neg]
      · rw [if_neg hn]
        obtain ⟨c, cs, hc, hd⟩ := printNatChars_cons n.toNat
        obtain ⟨h1, h2, h3, h4, h5, h6, h7, _, _, _, _⟩ := digit_ne hd
        rw [hc]
        simp only [List.cons_append]
        simp only [parseVal]
        rw [skipWs_of_head (digit_not_ws hd)]
        simp [h1, h2, h3, h4, h5, h6, h7, hd,
          parseDigits_print_head hc hr]
        omega
  | str s =>
    intro fuel rest hf _
    cases fuel with
    | zero => simp [jsize] at hf
    | succ f =>
      rw [printVal, printStr]
      simp only [List.cons_append, List.append_assoc, List.singleton_append]
      simp [parseVal, skipWs, isWsChar, parseStringBody_escapeChars,
        asString_data]
  | arr xs =>
    cases xs with
    | nil =>
      intro fuel rest hf _
      cases fuel with
      | zero => simp [jsize] at hf
      | succ f =>
        rw [printVal]
        simp [parseVal, skipWs, isWsChar]
    | cons x xs =>
      intro fuel rest hf _
      cases fuel with
      | zero => simp [jsize] at hf
      | succ f =>
        have hsz : jsizeItems x xs ≤ f := by
          rw [jsize] at hf
          omega
        have hit := parseItems_printItems x xs f rest hsz
        obtain ⟨c, cs, hc, hw, hne1, hne2⟩ := printVal_head x
        have ht : ∃ t, printItems x xs = c :: t := by
          cases xs with
          | nil => exact ⟨cs, by rw [printItems, hc]⟩
          | cons y ys =>
            exact ⟨cs ++ (',' :: ' ' :: printItems y ys),
              by rw [printItems, hc, List.cons_append]⟩
        obtain ⟨t, ht⟩ := ht
        rw [ht, List.cons_append] at hit
        rw [printVal]
        simp only [List.cons_append, List.append_assoc, List.singleton_append]
        rw [ht]
        simp only [List.cons_append]
        have houter : skipWs ('[' :: c :: (t ++ (']' :: rest))) =
            '[' :: c :: (t ++ (']' :: rest)) := skipWs_of_head (by decide) _
        have hinner : skipWs (c :: (t ++ (']' :: rest))) =
            c :: (t ++ (']' :: rest)) := skipWs_of_head hw _
        simp [parseVal, houter, hinner, hne1, hit]
  | obj fs =>
    cases fs with
    | nil =>
      intro fuel rest hf _
      cases fuel with
      | zero => simp [jsize] at hf
      | succ f =>
        rw [printVal]
        simp [parseVal, skipWs, isWsChar]
    | cons kv fs =>
      obtain ⟨k, v⟩ := kv
      intro fuel rest hf _
      cases fuel with
      | zero => simp [jsize] at hf
      | succ f =>
        have hsz : jsizeFields v fs ≤ f := by
          rw [jsize] at hf
          omega
        have hit := parseFields_printFields k v fs f rest hsz
        have ht : ∃ t, printFields k v fs = '"' :: t := by
          cases fs with
          | nil =>
            exact ⟨(escapeChars k.toList ++ ['"']) ++ (':' :: ' ' :: printVal v),
              by rw [printFields, printStr, List.cons_append]⟩
          | cons g gs =>
            obtain ⟨l, w⟩ := g
            exact ⟨((escapeChars k.toList ++ ['"']) ++ (':' :: ' ' :: printVal v)) ++
                (',' :: ' ' :: printFields l w gs),
              by rw [printFields, printStr, List.cons_append, List.cons_append]⟩
        obtain ⟨t, ht⟩ := ht
        rw [ht, List.cons_append] at hit
        rw [printVal]
        simp only [List.cons_append, List.append_assoc, List.singleton_append]
        rw [ht]
        simp only [List.cons_append]
        simp [parseVal, skipWs, isWsChar, hit]
termination_by sizeOf v
decreasing_by all_goals (simp_wf; try omega)

/-- Printed array items, followed by `]`, parse back to the item list. -/
theorem parseItems_printItems (x : Json) (xs : List Json) : ∀ fuel rest,
    jsizeItems x xs ≤ fuel →
    parseItems fuel (printItems x xs ++ (']' :: rest)) = some (x :: xs, rest) := by
  cases xs with
  | nil =>
    intro fuel rest hf
    cases fuel with
    | zero =>
      rw [jsizeItems] at hf
      omega
    | succ f =>
      have hx := parseVal_printVal x f (']' :: rest)
        (by rw [jsizeItems] at hf; omega) (by simp [notDigitStart, isDigitChar])
      rw [printItems]
      simp [parseItems, hx, skipWs, isWsChar]
  | cons y ys =>
    intro fuel rest hf
    cases fuel with
    | zero =>
      rw [jsizeItems] at hf
      have := jsize_pos x
      omega
    | succ f =>
      have hx := parseVal_printVal x f
        (',' :: ' ' :: (printItems y ys ++ (']' :: rest)))
        (by rw [jsizeItems] at hf; omega) (by simp [notDigitStart, isDigitChar])
      have hrec := parseItems_printItems y ys f rest
        (by rw [jsizeItems] at hf; omega)
      have hws := parseItems_ws f (show isWsChar ' ' = true by decide)
        (printItems y ys ++ (']' :: rest))
      rw [printItems]
      simp only [List.append_assoc, List.cons_append]
      simp [parseItems, hx, skipWs, isWsChar, hws, hrec]
termination_by 1 + sizeOf x + sizeOf xs
decreasing_by all_goals (simp_wf; try omega)

/-- Printed object fields, followed by a closing brace, parse back to the
field list. -/
theorem parseFields_printFields (k : String) (v : Json)
    (fs : List (String × Json)) : ∀ fuel rest, jsizeFields v fs ≤ fuel →
    parseFields fuel (printFields k v fs ++ ('}' :: rest)) =
      some ((k, v) :: fs, rest) := by
  cases fs with
  | nil =>
    intro fuel rest hf
    cases fuel with
    | zero =>
      rw [jsizeFields] at hf
      omega
    | succ f =>
      have hv := parseVal_printVal v f ('}' :: rest)
        (by rw [jsizeFields] at hf; omega) (by simp [notDigitStart, isDigitChar])
      have hvw := parseVal_ws f (show isWsChar ' ' = true by decide)
        (printVal v ++ ('}' :: rest))
      rw [printFields, printStr]
      simp only [List.cons_append, List.append_assoc, List.singleton_append]
      simp [parseFields, skipWs, isWsChar, parseStringBody_escapeChars,
        asString_data, hvw, hv]
  | cons g gs =>
    obtain ⟨l, w⟩ := g
    intro fuel rest hf
    cases fuel with
    | zero =>
      rw [jsizeFields] at hf
      have := jsize_pos v
      omega
    | succ f =>
      have hv := parseVal_printVal v f
        (',' :: ' ' :: (printFields l w gs ++ ('}' :: rest)))
        (by rw [jsizeFields] at hf; omega) (by simp [notDigitStart, isDigitChar])
      have hvw := parseVal_ws f (show isWsChar ' ' = true by decide)
        (printVal v ++ (',' :: ' ' :: (printFields l w gs ++ ('}' :: rest))))
      have hrec := parseFields_printFields l w gs f rest
        (by rw [jsizeFields] at hf; omega)
      have hws := parseFields_ws f (show isWsChar ' ' = true by decide)
        (printFields l w gs ++ ('}' :: rest))
      rw [printFields, printStr]
      simp only [List.cons_append, List.append_assoc, List.singleton_append]
      simp [parseFields, skipWs, isWsChar, parseStringBody_escapeChars,
        asString_data, hvw, hv, hws, hrec]
termination_by 1 + sizeOf v + sizeOf fs
decreasing_by all_goals (simp_wf; try omega)

end


theorem printStr_length (s : String) : 2 ≤ (printStr s).length := by
  rw [printStr]
  simp

mutual

/-- The budget `jsize` is covered by the printed length plus one. -/
theorem jsize_le_printVal (v : Json) : jsize v ≤ (printVal v).length + 1 := by
  cases v with
  | null => simp [jsize, printVal]
  | bool b =>
    cases b with
    | true => simp [jsize, printVal]
    | false => simp [jsize, printVal]
  | num n =>
    rw [jsize]
    omega
  | str s =>
    rw [jsize]
    omega
  | arr xs =>
    cases xs with
    | nil => simp [jsize, printVal]
    | cons x xs =>
      have h := jsizeItems_le_printItems x xs
      rw [jsize, printVal]
      simp only [List.length_cons, List.length_append, List.length_cons,
        List.length_nil]
      omega
  | obj fs =>
    cases fs with
    | nil => simp [jsize, printVal]
    | cons kv fs =>
      obtain ⟨k, v⟩ := kv
      have h := jsizeFields_le_printFields k v fs
      rw [jsize, printVal]
      simp only [List.length_cons, List.length_append, List.length_cons,
        List.length_nil]
      omega
termination_by sizeOf v
decreasing_by all_goals (simp_wf; try omega)

/-- Budget bound for printed array items. -/
theorem jsizeItems_le_printItems (x : Json) (xs : List Json) :
    jsizeItems x xs ≤ (printItems x xs).length + 2 := by
  cases xs with
  | nil =>
    have h := jsize_le_printVal x
    rw [jsizeItems, printItems]
    omega
  | cons y ys =>
    have h1 := jsize_le_printVal x
    have h2 := jsizeItems_le_printItems y ys
    rw [jsizeItems, printItems]
    simp only [List.length_append, List.length_cons]
    omega
termination_by 1 + sizeOf x + sizeOf xs
decreasing_by all_goals (simp_wf; try omega)

/-- Budget bound for printed object fields. -/
theorem jsizeFields_le_printFields (k : String) (v : Json)
    (fs : List (String × Json)) :
    jsizeFields v fs ≤ (printFields k v fs).length + 2 := by
  cases fs with
  | nil =>
    have h1 := jsize_le_printVal v
    have h2 := printStr_length k
    rw [jsizeFields, printFields]
    simp only [List.length_append, List.length_cons]
    omega
  | cons g gs =>
    obtain ⟨l, w⟩ := g
    have h1 := jsize_le_printVal v
    have h2 := jsizeFields_le_printFields l w gs
    have h3 := printStr_length k
    rw [jsizeFields, printFields]
    simp only [List.length_append, List.length_cons]
    omega
termination_by 1 + sizeOf v + sizeOf fs
decreasing_by all_goals (simp_wf; try omega)

end

/-- `json.loads` inverts `json.dump`: the serialised form of any value
decodes back to that value. -/
theorem jsonLoads_jsonDump (v : Json) : jsonLoads (jsonDump v) = some v := by
  have h1 : ((printVal v).asString).toList = printVal v := rfl
  have h2 : ((printVal v).asString).length = (printVal v).length := rfl
  have h3 := parseVal_printVal v ((printVal v).length + 1) []
    (by have := jsize_le_printVal v; omega) (by decide)
  rw [List.append_nil] at h3
  rw [jsonLoads, jsonDump, h1, h2, h3]
  simp [skipWs]


/-! ## Claims -/

/-- C2 counterexample: on empty command output the claim's "return an empty
sequence" fails — `json.loads` raises and the error propagates out of both
readers (only `CalledProcessError` is caught). -/
theorem C2_counterexample :
    get_networks_info (.ok "") = ([], .error .jsonDecodeError) ∧
    get_peers_info (.ok "") = ([], .error .jsonDecodeError) := by
  constructor <;> rfl

/-- C2 (amended): `get_networks_info` and `get_peers_info` return the empty
dict (after surfacing the captured output) when the command exits non-zero;
when the command succeeds but its output is empty or malformed, the decode
error propagates instead of yielding an empty result. -/
theorem C2_readers_lenient_only_on_command_failure (code : Nat)
    (out s : String) :
    get_networks_info (.err code out) =
      ([commandErrorMessage out], .ok (.obj [])) ∧
    get_peers_info (.err code out) =
      ([commandErrorMessage out], .ok (.obj [])) ∧
    (jsonLoads s = none →
      get_networks_info (.ok s) = ([], .error .jsonDecodeError) ∧
      get_peers_info (.ok s) = ([], .error .jsonDecodeError)) := by
  refine ⟨rfl, rfl, fun h => ?_⟩
  constructor <;> simp [get_networks_info, get_peers_info, h]

/-- C2 witness: the amended theorem at exit code 1, output "boom", and the
undecodable output "not json". -/
theorem C2_witness :
    get_networks_info (.err 1 "boom") =
      ([commandErrorMessage "boom"], .ok (.obj [])) ∧
    get_networks_info (.ok "not json") = ([], .error .jsonDecodeError) ∧
    get_peers_info (.ok "not json") = ([], .error .jsonDecodeError) :=
  ⟨(C2_readers_lenient_only_on_command_failure 1 "boom" "not json").1,
   ((C2_readers_lenient_only_on_command_failure 1 "boom" "not json").2.2
     (by decide)).1,
   ((C2_readers_lenient_only_on_command_failure 1 "boom" "not json").2.2
     (by decide)).2⟩

/-- C3 counterexample: on this Windows source, `toggle_interface_connection`
issues no external command at all (it only shows one dialog), and
`get_interface_state` reports "UP" without scanning any interface listing —
the claimed resolve/scan/inverse-command behaviour does not happen. -/
theorem C3_counterexample :
    (toggle_interface_connection.filter fun e =>
        match e with
        | .runCommand _ => true
        | .showInfo _ _ => false) = [] ∧
    get_interface_state ("zt" ++ "8056c2e21c000001") = "UP" := by
  constructor <;> rfl

/-- C3 (amended): the interface-toggle feature is disabled in this Windows
build — `toggle_interface_connection` only shows an informational dialog and
issues no state-change command, and `get_interface_state` returns "UP" for
every interface name. -/
theorem C3_toggle_disabled_on_windows :
    toggle_interface_connection =
      [Effect.showInfo "Non disponible"
        "La fonction de connexion/déconnexion d'interface n'est pas disponible sur Windows"] ∧
    ∀ interface : String, get_interface_state interface = "UP" :=
  ⟨rfl, fun _ => rfl⟩

/-- C4 counterexample: deleting an id absent from the history raises
`KeyError` (Python `dict.pop` with no default) instead of being a no-op. -/
theorem C4_counterexample :
    delete_history_entry
      (.obj [("8056c2e21c000001",
        .obj [("name", .str "a"), ("join_date", .str "2024/01/02 03:04")])])
      "deadbeef00000000" =
      .error (.keyError (.str "deadbeef00000000")) := by
  rfl

/-- C4 (amended): `delete_history_entry` removes the key when it is present
(leaving the other entries in place) and raises `KeyError` when it is
absent. -/
theorem C4_delete_present_or_keyerror (fs : List (String × Json))
    (network_id : String) :
    (lookupField fs network_id ≠ none →
      delete_history_entry (.obj fs) network_id =
        .ok (.obj (removeField fs network_id))) ∧
    (lookupField fs network_id = none →
      delete_history_entry (.obj fs) network_id =
        .error (.keyError (.str network_id))) := by
  constructor
  · intro h
    cases hl : lookupField fs network_id with
    | none => exact absurd hl h
    | some v => simp [delete_history_entry, pyPop, hl]
  · intro h
    simp [delete_history_entry, pyPop, h]

/-- C4 witness: the amended theorem on a one-entry history, deleting the
present key and an absent key. -/
theorem C4_witness :
    delete_history_entry (.obj [("a", Json.null)]) "a" = .ok (.obj []) ∧
    delete_history_entry (.obj [("a", Json.null)]) "b" =
      .error (.keyError (.str "b")) := by
  constructor
  · have h := (C4_delete_present_or_keyerror [("a", Json.null)] "a").1
      (by decide)
    simpa [removeField] using h
  · exact (C4_delete_present_or_keyerror [("a", Json.null)] "b").2 (by decide)

/-- C6: loading the history store never fails — a missing file is created
empty and yields the empty mapping, and content that `json.loads` rejects
also yields the empty mapping. -/
theorem C6_load_never_fails (s : String) :
    load_network_history none = ("", .obj []) ∧
    (jsonLoads s = none → load_network_history (some s) = (s, .obj [])) := by
  refine ⟨rfl, fun h => ?_⟩
  simp [load_network_history, h]

/-- C6 witness: the theorem at the invalid JSON text "not json". -/
theorem C6_witness :
    load_network_history none = ("", .obj []) ∧
    load_network_history (some "not json") = ("not json", .obj []) :=
  ⟨(C6_load_never_fails "not json").1,
   (C6_load_never_fails "not json").2 (by decide)⟩

/-- C8: `save` after `load` is idempotent — for any history value persisted
by `save_network_history`, loading it, saving the loaded mapping unchanged
and loading again yields the same mapping as the first load. -/
theorem C8_save_load_idempotent (m : Json) :
    (load_network_history (some (save_network_history
      (load_network_history (some (save_network_history m))).2))).2 =
    (load_network_history (some (save_network_history m))).2 := by
  have h1 : (load_network_history (some (save_network_history m))).2 = m := by
    simp [load_network_history, save_network_history, jsonLoads_jsonDump m]
  rw [h1]
  exact h1

/-- C10: when the external command exits non-zero, all three readers
surface the captured output in an error dialog and return an empty
collection, and a refresh performed on such empty data leaves no rows
displayed and the history unchanged. -/
theorem C10_failure_returns_empty_and_clears (code : Nat) (out : String)
    (network_history : Json) :
    get_networks_info (.err code out) =
      ([commandErrorMessage out], .ok (.obj [])) ∧
    get_peers_info (.err code out) =
      ([commandErrorMessage out], .ok (.obj [])) ∧
    get_status (.err code out) = ([commandErrorMessage out], []) ∧
    refresh_networks (.obj []) (.obj []) network_history =
      .ok ([], network_history) := by
  exact ⟨rfl, rfl, rfl, rfl⟩


theorem bind_ok {α β : Type} (a : α) (f : α → Except PyError β) :
    (Except.ok a >>= f) = f a := rfl

theorem bind_error {α β : Type} (e : PyError) (f : α → Except PyError β) :
    ((Except.error e : Except PyError α) >>= f) = .error e := rfl

/-- Once the `is_on_network` loop flag is true, the loop breaks at once. -/
theorem isOnLoop_true (network_id : String) (l : List Json) :
    isOnLoop network_id true l = .ok true := by
  cases l with
  | nil => rfl
  | cons n rest => rfl

/-- The `is_on_network` scan succeeds with `true` whenever every record has
an `nwid` field and some record's `nwid` is the searched id. -/
theorem isOnLoop_finds (network_id : String) (nets : List Json)
    (hwf : ∀ n ∈ nets, ∃ v, pyGet n "nwid" = .ok v)
    (hmem : ∃ n ∈ nets, pyGet n "nwid" = .ok (.str network_id)) :
    isOnLoop network_id false nets = .ok true := by
  induction nets with
  | nil => simp at hmem
  | cons n rest ih =>
    obtain ⟨v, hv⟩ := hwf n (by simp)
    simp only [isOnLoop, if_neg (by simp : ¬false = true), hv, bind_ok]
    by_cases he : v = .str network_id
    · subst he
      simp only [decide_eq_true_eq, decide_eq_true (rfl : (Json.str network_id) = .str network_id)]
      exact isOnLoop_true _ _
    · rw [decide_eq_false he]
      apply ih
      · intro m hm
        exact hwf m (by simp [hm])
      · obtain ⟨m, hm, hg⟩ := hmem
        rcases List.mem_cons.mp hm with rfl | hm2
        · rw [hv] at hg
          cases hg
          exact absurd rfl he
        · exact ⟨m, hm2, hg⟩

/-- C1: when a record of the fresh `listnetworks` scan has the given id as
its `nwid` (and every record has an `nwid`), `join_network` reports
"You're already a member of this network.", does not invoke the external
join command, leaves the history mapping untouched and performs no
refresh. -/
theorem C1_join_short_circuits_when_member (nets : List Json)
    (netsAfter : Json) (joinSucceeds : Bool) (now : PyDateTime)
    (network_history : Json) (network_id : String)
    (hwf : ∀ n ∈ nets, ∃ v, pyGet n "nwid" = .ok v)
    (hmem : ∃ n ∈ nets, pyGet n "nwid" = .ok (.str network_id)) :
    join_network (.arr nets) netsAfter joinSucceeds now network_history
        network_id =
      .ok { messages := ["You're already a member of this network."],
            network_history := network_history, joinInvoked := false,
            refreshed := false } := by
  have hon : is_on_network (.arr nets) network_id = .ok true := by
    simp only [is_on_network, pyIter, bind_ok]
    exact isOnLoop_finds network_id nets hwf hmem
  simp [join_network, hon, bind_ok]

/-- C1 witness: the theorem on a one-record scan already containing the
joined id. -/
theorem C1_witness :
    join_network (.arr [.obj [("nwid", .str "8056c2e21c000001")]]) (.arr [])
        true ⟨2024, 1, 2, 3, 4⟩ (.obj []) "8056c2e21c000001" =
      .ok { messages := ["You're already a member of this network."],
            network_history := .obj [], joinInvoked := false,
            refreshed := false } :=
  C1_join_short_circuits_when_member
    [.obj [("nwid", .str "8056c2e21c000001")]] (.arr []) true
    ⟨2024, 1, 2, 3, 4⟩ (.obj []) "8056c2e21c000001"
    (by
      intro n hn
      rw [List.mem_singleton] at hn
      subst hn
      exact ⟨.str "8056c2e21c000001", rfl⟩)
    ⟨.obj [("nwid", .str "8056c2e21c000001")], by simp, rfl⟩

/-- A padded component is two digits long for any value below 100. -/
theorem pad2_spec : ∀ n, n < 100 → (pad2 n).length = 2 ∧
    ∀ c ∈ (pad2 n).data, isDigitChar c = true := by decide

/-- C7 counterexample: joining an id that the fresh `listnetworks` scan
does not contain stores Python `None` (JSON null) as the entry's name — the
name field is then not a string. -/
theorem C7_counterexample :
    add_network_to_history (.arr []) ⟨2024, 1, 2, 3, 4⟩ (.obj [])
        "8056c2e21c000001" =
      .ok (.obj [("8056c2e21c000001",
        .obj [("name", Json.null),
              ("join_date", .str "2024/01/02 03:04")])]) := by
  rfl

/-- C7 (amended): `add_network_to_history` inserts or overwrites the entry
for the id with the name resolved from the fresh scan (Python `None` when
the id is not found there) and the current timestamp formatted
`year/MM/DD HH:MM`, month, day, hour and minute zero-padded to two
digits. -/
theorem C7_record_join_entry (networkData : Json) (now : PyDateTime)
    (entries : List (String × Json)) (network_id : String) (nm : Json)
    (hname : get_network_name_by_id networkData network_id = .ok nm) :
    add_network_to_history networkData now (.obj entries) network_id =
      .ok (.obj (setField entries network_id
        (.obj [("name", nm),
               ("join_date", .str (format_join_date now))]))) ∧
    format_join_date now =
      toString now.year ++ "/" ++ pad2 now.month ++ "/" ++ pad2 now.day ++
        " " ++ pad2 now.hour ++ ":" ++ pad2 now.minute ∧
    (now.month < 100 → (pad2 now.month).length = 2 ∧
      ∀ c ∈ (pad2 now.month).data, isDigitChar c = true) ∧
    (now.day < 100 → (pad2 now.day).length = 2 ∧
      ∀ c ∈ (pad2 now.day).data, isDigitChar c = true) ∧
    (now.hour < 100 → (pad2 now.hour).length = 2 ∧
      ∀ c ∈ (pad2 now.hour).data, isDigitChar c = true) ∧
    (now.minute < 100 → (pad2 now.minute).length = 2 ∧
      ∀ c ∈ (pad2 now.minute).data, isDigitChar c = true) := by
  refine ⟨?_, rfl, pad2_spec now.month, pad2_spec now.day,
    pad2_spec now.hour, pad2_spec now.minute⟩
  simp [add_network_to_history, hname, bind_ok, pySetItem]

/-- C7 witness: the amended theorem with the scan containing the id, at
2024-01-02 03:04. -/
theorem C7_witness :
    add_network_to_history
        (.arr [.obj [("nwid", .str "8056c2e21c000001"),
                     ("name", .str "mynet")]])
        ⟨2024, 1, 2, 3, 4⟩ (.obj []) "8056c2e21c000001" =
      .ok (.obj [("8056c2e21c000001",
        .obj [("name", .str "mynet"),
              ("join_date", .str (format_join_date ⟨2024, 1, 2, 3, 4⟩))])]) ∧
    (pad2 (1 : Nat)).length = 2 := by
  have h := C7_record_join_entry
    (.arr [.obj [("nwid", .str "8056c2e21c000001"), ("name", .str "mynet")]])
    ⟨2024, 1, 2, 3, 4⟩ [] "8056c2e21c000001" (.str "mynet") (by rfl)
  exact ⟨by simpa [setField] using h.1, (h.2.2.1 (by decide)).1⟩


theorem lookupField_mem {fs : List (String × Json)} {k : String} {v : Json}
    (h : lookupField fs k = some v) : (k, v) ∈ fs := by
  induction fs with
  | nil => simp [lookupField] at h
  | cons kv fs ih =>
    obtain ⟨k', w⟩ := kv
    by_cases hk : k' = k
    · subst hk
      simp [lookupField] at h
      simp [h]
    · simp [lookupField, hk] at h
      simp [ih h]

theorem lookupField_setField_self (fs : List (String × Json)) (k : String)
    (v : Json) : lookupField (setField fs k v) k = some v := by
  induction fs with
  | nil => simp [setField, lookupField]
  | cons kv fs ih =>
    obtain ⟨k', w⟩ := kv
    by_cases hk : k' = k
    · subst hk
      simp [setField, lookupField]
    · simp [setField, lookupField, hk, ih]

theorem lookupField_setField_ne (fs : List (String × Json)) (k : String)
    (v : Json) {k' : String} (h : k' ≠ k) :
    lookupField (setField fs k v) k' = lookupField fs k' := by
  induction fs with
  | nil => simp [setField, lookupField, Ne.symm h]
  | cons kv fs ih =>
    obtain ⟨k2, w⟩ := kv
    by_cases hk : k2 = k
    · subst hk
      simp [setField, lookupField, Ne.symm h]
    · by_cases hk2 : k2 = k'
      · subst hk2
        simp [setField, lookupField, hk]
      · simp [setField, lookupField, hk, hk2, ih]

theorem map_fst_setField (fs : List (String × Json)) (k : String) (v : Json)
    (h : lookupField fs k ≠ none) :
    (setField fs k v).map Prod.fst = fs.map Prod.fst := by
  induction fs with
  | nil => simp [lookupField] at h
  | cons kv fs ih =>
    obtain ⟨k', w⟩ := kv
    by_cases hk : k' = k
    · subst hk
      simp [setField]
    · simp [lookupField, hk] at h
      simp [setField, hk, ih h]

theorem setField_values {fs : List (String × Json)} {k : String} {v : Json} :
    ∀ kv ∈ setField fs k v, kv ∈ fs ∨ kv.2 = v := by
  induction fs with
  | nil =>
    intro kv hkv
    simp [setField] at hkv
    simp [hkv]
  | cons kw fs ih =>
    obtain ⟨k', w⟩ := kw
    intro kv hkv
    by_cases hk : k' = k
    · subst hk
      simp [setField] at hkv
      rcases hkv with rfl | hkv
      · simp
      · simp [hkv]
    · simp [setField, hk] at hkv
      rcases hkv with rfl | hkv
      · simp
      · rcases ih kv hkv with hm | hv
        · simp [hm]
        · simp [hv]


theorem lookupField_eq_none {fs : List (String × Json)} {k : String} :
    lookupField fs k = none ↔ k ∉ fs.map Prod.fst := by
  induction fs with
  | nil => simp [lookupField]
  | cons kv fs ih =>
    obtain ⟨k', w⟩ := kv
    by_cases hk : k' = k
    · subst hk
      simp [lookupField]
    · simp [lookupField, hk, ih, Ne.symm hk]

/-- Full behaviour of the `update_network_history_names` loop on a
well-formed scan (string `nwid` and a `name` on every record, distinct
`nwid`s) and a history whose values are objects: the keys are preserved in
order, values stay objects, entries of ids not in the scan are untouched,
every entry changes at most in its `name` field, and the entry of a
scanned id that is a history key gets that record's `name`. -/
theorem updateNamesLoop_spec (nets : List Json) :
    ∀ entries : List (String × Json),
    (∀ n ∈ nets, ∃ id nm, pyGet n "nwid" = .ok (.str id) ∧
      pyGet n "name" = .ok nm) →
    (∀ kv ∈ entries, ∃ efs, (kv : String × Json).2 = .obj efs) →
    (∀ a ∈ nets, ∀ b ∈ nets, ∀ k : String, pyGet a "nwid" = .ok (.str k) →
      pyGet b "nwid" = .ok (.str k) → a = b) →
    ∃ entries', updateNamesLoop nets (.obj entries) = .ok (.obj entries') ∧
      entries'.map Prod.fst = entries.map Prod.fst ∧
      (∀ kv ∈ entries', ∃ efs, kv.2 = .obj efs) ∧
      (∀ k : String, (∀ n ∈ nets, ¬ pyGet n "nwid" = .ok (.str k)) →
        lookupField entries' k = lookupField entries k) ∧
      (∀ k efs efs', lookupField entries k = some (.obj efs) →
        lookupField entries' k = some (.obj efs') →
        ∀ f, f ≠ "name" → lookupField efs' f = lookupField efs f) ∧
      (∀ n ∈ nets, ∀ (k : String) (nm : Json),
        pyGet n "nwid" = .ok (.str k) → pyGet n "name" = .ok nm →
        ∀ efs', lookupField entries' k = some (.obj efs') →
        lookupField efs' "name" = some nm) := by
  induction nets with
  | nil =>
    intro entries _ hentries _
    refine ⟨entries, rfl, rfl, hentries, fun k _ => rfl, ?_, ?_⟩
    · intro k efs efs' h1 h2 f _
      rw [h1] at h2
      cases h2
      rfl
    · intro n hn
      simp at hn
  | cons n rest ih =>
    intro entries hrec hentries huniq
    obtain ⟨id, nm, hid, hnm⟩ := hrec n (by simp)
    have hrecR : ∀ m ∈ rest, ∃ i2 n2, pyGet m "nwid" = .ok (.str i2) ∧
        pyGet m "name" = .ok n2 := fun m hm => hrec m (by simp [hm])
    have huniqR : ∀ a ∈ rest, ∀ b ∈ rest, ∀ k : String,
        pyGet a "nwid" = .ok (.str k) → pyGet b "nwid" = .ok (.str k) →
        a = b :=
      fun a ha b hb k h1 h2 =>
        huniq a (by simp [ha]) b (by simp [hb]) k h1 h2
    cases hpres : lookupField entries id with
    | some e =>
      obtain ⟨efs, hefs⟩ := hentries (id, e) (lookupField_mem hpres)
      simp only at hefs
      subst hefs
      have hstep : updateNamesLoop (n :: rest) (.obj entries) =
          updateNamesLoop rest
            (.obj (setField entries id (.obj (setField efs "name" nm)))) := by
        simp [updateNamesLoop, hid, hnm, bind_ok, pyContains, hpres,
          pyGetItem, pySetItem]
      have hentries2 : ∀ kv ∈ setField entries id
          (.obj (setField efs "name" nm)), ∃ efs2, kv.2 = .obj efs2 := by
        intro kv hkv
        rcases setField_values kv hkv with hm | hv
        · exact hentries kv hm
        · exact ⟨_, hv⟩
      obtain ⟨entries', heq, hkeys, hvals, hframe, hnamef, hupd⟩ :=
        ih (setField entries id (.obj (setField efs "name" nm)))
          hrecR hentries2 huniqR
      refine ⟨entries', by rw [hstep, heq], ?_, hvals, ?_, ?_, ?_⟩
      · rw [hkeys, map_fst_setField]
        rw [hpres]
        simp
      · intro k hk
        have hkid : k ≠ id := by
          intro hkk
          subst hkk
          exact hk n (by simp) hid
        rw [hframe k (fun m hm => hk m (by simp [hm]))]
        exact lookupField_setField_ne entries id _ hkid
      · intro k efs0 efs0' h1 h2 f hf
        by_cases hkid : k = id
        · subst hkid
          rw [hpres] at h1
          cases h1
          have h2' := hnamef k (setField efs "name" nm) efs0'
            (lookupField_setField_self entries k _) h2 f hf
          rw [h2', lookupField_setField_ne efs "name" nm hf]
        · have h1' : lookupField
              (setField entries id (.obj (setField efs "name" nm))) k =
              some (.obj efs0) := by
            rw [lookupField_setField_ne entries id _ hkid]
            exact h1
          exact hnamef k efs0 efs0' h1' h2 f hf
      · intro m hm k nmk hmk hmn efs' hlk
        rcases List.mem_cons.mp hm with rfl | hmR
        · rw [hid] at hmk
          have hkid : id = k := by
            injection hmk with h
            injection h with h2
          subst hkid
          rw [hnm] at hmn
          have hnmk : nm = nmk := by
            injection hmn with h
          subst hnmk
          by_cases hrest : ∃ m2 ∈ rest, pyGet m2 "nwid" = .ok (.str id)
          · obtain ⟨m2, hm2, hg2⟩ := hrest
            have hmn2 : m2 = m :=
              huniq m2 (by simp [hm2]) m (by simp) id hg2 hid
            subst hmn2
            exact hupd m2 hm2 id nm hid hnm efs' hlk
          · have hnolive : ∀ m2 ∈ rest, ¬ pyGet m2 "nwid" = .ok (.str id) :=
              fun m2 hm2 hg2 => hrest ⟨m2, hm2, hg2⟩
            have hlook := hframe id hnolive
            rw [lookupField_setField_self entries id _] at hlook
            rw [hlook] at hlk
            cases hlk
            exact lookupField_setField_self efs "name" nm
        · exact hupd m hmR k nmk hmk hmn efs' hlk
    | none =>
      have hstep : updateNamesLoop (n :: rest) (.obj entries) =
          updateNamesLoop rest (.obj entries) := by
        simp [updateNamesLoop, hid, hnm, bind_ok, pyContains, hpres]
      obtain ⟨entries', heq, hkeys, hvals, hframe, hnamef, hupd⟩ :=
        ih entries hrecR hentries huniqR
      refine ⟨entries', by rw [hstep, heq], hkeys, hvals, ?_, hnamef, ?_⟩
      · intro k hk
        exact hframe k (fun m hm => hk m (by simp [hm]))
      · intro m hm k nmk hmk hmn efs' hlk
        rcases List.mem_cons.mp hm with rfl | hmR
        · rw [hid] at hmk
          have hkid : id = k := by
            injection hmk with h
            injection h with h2
          subst hkid
          have hnone : lookupField entries' id = none := by
            rw [lookupField_eq_none, hkeys, ← lookupField_eq_none]
            exact hpres
          rw [hnone] at hlk
          cases hlk
        · exact hupd m hmR k nmk hmk hmn efs' hlk


/-- C5: on a well-formed fresh scan (each record with a string `nwid` and a
`name`, `nwid`s distinct) and a history whose values are objects,
`update_network_history_names` preserves the key set in order, leaves every
entry whose id is not in the scan untouched, changes at most the `name`
field of any entry — every `join_date` is unchanged — and overwrites the
`name` of each history entry whose id is in the scan with that record's
live name. -/
theorem C5_refresh_names_updates_only_names (nets : List Json)
    (entries : List (String × Json))
    (hrec : ∀ n ∈ nets, ∃ id nm, pyGet n "nwid" = .ok (.str id) ∧
      pyGet n "name" = .ok nm)
    (hentries : ∀ kv ∈ entries, ∃ efs, (kv : String × Json).2 = .obj efs)
    (huniq : ∀ a ∈ nets, ∀ b ∈ nets, ∀ k : String,
      pyGet a "nwid" = .ok (.str k) → pyGet b "nwid" = .ok (.str k) →
      a = b) :
    ∃ entries', update_network_history_names (.arr nets) (.obj entries) =
        .ok (.obj entries') ∧
      entries'.map Prod.fst = entries.map Prod.fst ∧
      (∀ k : String, (∀ n ∈ nets, ¬ pyGet n "nwid" = .ok (.str k)) →
        lookupField entries' k = lookupField entries k) ∧
      (∀ k efs efs', lookupField entries k = some (.obj efs) →
        lookupField entries' k = some (.obj efs') →
        lookupField efs' "join_date" = lookupField efs "join_date" ∧
        ∀ f, f ≠ "name" → lookupField efs' f = lookupField efs f) ∧
      (∀ n ∈ nets, ∀ (k : String) (nm : Json),
        pyGet n "nwid" = .ok (.str k) → pyGet n "name" = .ok nm →
        ∀ efs', lookupField entries' k = some (.obj efs') →
        lookupField efs' "name" = some nm) := by
  obtain ⟨entries', heq, hkeys, _, hframe, hnamef, hupd⟩ :=
    updateNamesLoop_spec nets entries hrec hentries huniq
  refine ⟨entries', ?_, hkeys, hframe, ?_, hupd⟩
  · simp [update_network_history_names, pyIter, bind_ok, heq]
  · intro k efs efs' h1 h2
    exact ⟨hnamef k efs efs' h1 h2 "join_date" (by decide),
      hnamef k efs efs' h1 h2⟩

/-- C5 witness: a history entry recorded at 2024/01/02 03:04, then a
refresh with a live record of the same id and a new name — the name is
overwritten, the join date untouched. -/
theorem C5_witness :
    update_network_history_names
        (.arr [.obj [("nwid", .str "n1"), ("name", .str "newname")]])
        (.obj [("n1", .obj [("name", .str "old"),
                            ("join_date", .str "2024/01/02 03:04")])]) =
      .ok (.obj [("n1", .obj [("name", .str "newname"),
                              ("join_date", .str "2024/01/02 03:04")])]) ∧
    (∃ entries', update_network_history_names
        (.arr [.obj [("nwid", .str "n1"), ("name", .str "newname")]])
        (.obj [("n1", .obj [("name", .str "old"),
                            ("join_date", .str "2024/01/02 03:04")])]) =
        .ok (.obj entries') ∧
      entries'.map Prod.fst =
        [("n1", Json.obj [("name", Json.str "old"),
          ("join_date", Json.str "2024/01/02 03:04")])].map Prod.fst ∧
      (∀ k : String,
        (∀ n ∈ [Json.obj [("nwid", Json.str "n1"),
            ("name", Json.str "newname")]],
          ¬ pyGet n "nwid" = .ok (.str k)) →
        lookupField entries' k = lookupField
          [("n1", Json.obj [("name", Json.str "old"),
            ("join_date", Json.str "2024/01/02 03:04")])] k) ∧
      (∀ k efs efs',
        lookupField [("n1", Json.obj [("name", Json.str "old"),
          ("join_date", Json.str "2024/01/02 03:04")])] k =
          some (.obj efs) →
        lookupField entries' k = some (.obj efs') →
        lookupField efs' "join_date" = lookupField efs "join_date" ∧
        ∀ f, f ≠ "name" → lookupField efs' f = lookupField efs f) ∧
      (∀ n ∈ [Json.obj [("nwid", Json.str "n1"),
          ("name", Json.str "newname")]],
        ∀ (k : String) (nm : Json),
        pyGet n "nwid" = .ok (.str k) → pyGet n "name" = .ok nm →
        ∀ efs', lookupField entries' k = some (.obj efs') →
        lookupField efs' "name" = some nm)) := by
  constructor
  · rfl
  · exact C5_refresh_names_updates_only_names
      [.obj [("nwid", .str "n1"), ("name", .str "newname")]]
      [("n1", .obj [("name", .str "old"),
        ("join_date", .str "2024/01/02 03:04")])]
      (by
        intro n hn
        rw [List.mem_singleton] at hn
        subst hn
        exact ⟨"n1", .str "newname", rfl, rfl⟩)
      (by
        intro kv hkv
        rw [List.mem_singleton] at hkv
        subst hkv
        exact ⟨_, rfl⟩)
      (by
        intro a ha b hb k h1 h2
        rw [List.mem_singleton] at ha hb
        rw [ha, hb])


theorem pyGetItem_arr_zero (x : Json) (xs : List Json) :
    pyGetItem (.arr (x :: xs)) (.num ((0 : Nat) : Int)) = .ok x := by
  simp [pyGetItem]

theorem pyGetItem_arr_succ (x : Json) (xs : List Json) (i : Nat) :
    pyGetItem (.arr (x :: xs)) (.num ((i + 1 : Nat) : Int)) =
      pyGetItem (.arr xs) (.num ((i : Nat) : Int)) := by
  simp only [pyGetItem, Int.toNat_ofNat, List.length_cons]
  by_cases h : i < xs.length
  · rw [dif_pos ⟨by omega, by omega⟩, dif_pos ⟨by omega, h⟩]
    rfl
  · rw [dif_neg fun hh => h (by omega : i < xs.length),
      dif_neg fun hh => h hh.2]

/-- The per-record extraction that `collectNetworkTuples` performs when it
walks `range(len(...))` over an array. -/
def mapTuples : List Json → Except PyError (List (Json × Json × Json × Bool))
  | [] => .ok []
  | n :: rest => do
    let a ← pyGet n "id"
    let b ← pyGet n "name"
    let c ← pyGet n "status"
    let tail ← mapTuples rest
    .ok ((a, b, c, false) :: tail)

theorem collect_shift (x : Json) (nets : List Json) (idxs : List Nat) :
    collectNetworkTuples (.arr (x :: nets)) (idxs.map Nat.succ) =
      collectNetworkTuples (.arr nets) idxs := by
  induction idxs with
  | nil => rfl
  | cons i idxs ih =>
    simp only [List.map_cons, collectNetworkTuples]
    rw [show ((Nat.succ i : Nat) : Int) = ((i + 1 : Nat) : Int) from rfl]
    simp only [pyGetItem_arr_succ, ih]

theorem collect_range (nets : List Json) :
    collectNetworkTuples (.arr nets) (List.range nets.length) =
      mapTuples nets := by
  induction nets with
  | nil => rfl
  | cons x nets ih =>
    rw [List.length_cons, List.range_succ_eq_map]
    simp only [collectNetworkTuples, pyGetItem_arr_zero, bind_ok,
      collect_shift, ih, mapTuples]

theorem mapTuples_spec (nets : List Json)
    (h : ∀ n ∈ nets, ∃ a b c, pyGet n "id" = .ok a ∧
      pyGet n "name" = .ok b ∧ pyGet n "status" = .ok c) :
    ∃ tuples, mapTuples nets = .ok tuples ∧ tuples.length = nets.length ∧
      ∀ (j : Nat) (n : Json), nets[j]? = some n → ∀ a b c, pyGet n "id" = .ok a →
        pyGet n "name" = .ok b → pyGet n "status" = .ok c →
        tuples[j]? = some (a, b, c, false) := by
  induction nets with
  | nil => exact ⟨[], rfl, rfl, by simp⟩
  | cons n rest ih =>
    obtain ⟨a, b, c, ha, hb, hc⟩ := h n (by simp)
    obtain ⟨tuples, heq, hlen, hspec⟩ := ih (fun m hm => h m (by simp [hm]))
    refine ⟨(a, b, c, false) :: tuples, ?_, by simp [hlen], ?_⟩
    · simp [mapTuples, ha, hb, hc, bind_ok, heq]
    · intro j m hj a' b' c' ha' hb' hc'
      cases j with
      | zero =>
        simp at hj
        subst hj
        rw [ha] at ha'
        cases ha'
        rw [hb] at hb'
        cases hb'
        rw [hc] at hc'
        cases hc'
        simp
      | succ j =>
        simp only [List.getElem?_cons_succ] at hj ⊢
        exact hspec j m hj a' b' c' ha' hb' hc'

/-- C9 counterexample: a record with no `name` key is not displayed with
the placeholder — the subscript raises `KeyError` and the refresh
propagates it. -/
theorem C9_counterexample :
    refresh_networks_rows (.arr [.obj [("id", .str "8056c2e21c000001"),
        ("status", .str "OK")]]) =
      .error (.keyError (.str "name")) := by
  rfl

/-- C9 (amended): over records that do carry `id`, `name` and `status`
fields, the displayed rows replace a falsy name (the empty string, or
Python `None`) by "Unknown Name" and pass every other name through
unchanged, so no displayed name is the empty string; a record without a
`name` key instead raises `KeyError`. -/
theorem C9_display_names_never_empty (nets : List Json)
    (h : ∀ n ∈ nets, ∃ a b c, pyGet n "id" = .ok a ∧
      pyGet n "name" = .ok b ∧ pyGet n "status" = .ok c) :
    ∃ rows, refresh_networks_rows (.arr nets) = .ok rows ∧
      rows.length = nets.length ∧
      (∀ (j : Nat) (n : Json), nets[j]? = some n → ∀ a b c, pyGet n "id" = .ok a →
        pyGet n "name" = .ok b → pyGet n "status" = .ok c →
        rows[j]? =
          some (a, (if pyFalsy b then .str "Unknown Name" else b), c)) ∧
      (∀ r ∈ rows, r.2.1 ≠ .str "") := by
  obtain ⟨tuples, heq, hlen, hspec⟩ := mapTuples_spec nets h
  refine ⟨tuples.map (fun t =>
      (t.1, if pyFalsy t.2.1 then .str "Unknown Name" else t.2.1, t.2.2.1)),
    ?_, by simp [hlen], ?_, ?_⟩
  · simp [refresh_networks_rows, pyLen, bind_ok, collect_range, heq]
  · intro j n hj a b c ha hb hc
    rw [List.getElem?_map, hspec j n hj a b c ha hb hc]
    rfl
  · intro r hr
    simp only [List.mem_map] at hr
    obtain ⟨t, ht, rfl⟩ := hr
    by_cases hf : pyFalsy t.2.1
    · simp only [if_pos hf]
      decide
    · simp only [if_neg hf]
      intro hcontra
      rw [hcontra] at hf
      exact hf (by rfl)

/-- C9 witness: the spec's end-to-end scenario — one record with an empty
name displays as "Unknown Name". -/
theorem C9_witness :
    refresh_networks_rows (.arr [.obj [("id", .str "8056c2e21c000001"),
        ("name", .str ""), ("status", .str "OK")]]) =
      .ok [(.str "8056c2e21c000001", .str "Unknown Name", .str "OK")] ∧
    (∃ rows, refresh_networks_rows
        (.arr [.obj [("id", .str "8056c2e21c000001"),
          ("name", .str ""), ("status", .str "OK")]]) = .ok rows ∧
      rows.length = 1 ∧
      (∀ (j : Nat) (n : Json), [Json.obj [("id", Json.str "8056c2e21c000001"),
          ("name", Json.str ""), ("status", Json.str "OK")]][j]? =
            some n →
        ∀ a b c, pyGet n "id" = .ok a → pyGet n "name" = .ok b →
          pyGet n "status" = .ok c →
          rows[j]? =
            some (a, (if pyFalsy b then .str "Unknown Name" else b), c)) ∧
      (∀ r ∈ rows, r.2.1 ≠ .str "")) := by
  constructor
  · rfl
  · have h := C9_display_names_never_empty
      [.obj [("id", .str "8056c2e21c000001"), ("name", .str ""),
        ("status", .str "OK")]]
      (by
        intro n hn
        rw [List.mem_singleton] at hn
        subst hn
        exact ⟨.str "8056c2e21c000001", .str "", .str "OK", rfl, rfl, rfl⟩)
    simpa using h


end ZtGui
